import Mathlib

/-!
Verification of the slab-local USB music appliance.

This file gives a shallow embedding of the parts of the Python sources that
the specification talks about:

  - the Python string primitives that the control-command interpreters use
    (str.strip, str.lower, str.startswith, str.split, str.replace, int(...)),
    modelled on lists of characters;
  - the control-command interpreter of MusicPlayer._process_control_file
    (music_player.py) and the control-file dispatch of main_loop (main.py);
  - the volume setters of Player.set_volume (player.py) and
    MusicPlayer.set_volume (music_player.py);
  - the mount-change detection step of USBMonitor._check_usb_changes
    (usb_monitor.py);
  - the orchestration step of main_loop (main.py) together with Player.stop;
  - the playback-session transitions of MusicPlayer.next_track,
    MusicPlayer.previous_track, MusicPlayer._on_track_end and
    MusicPlayer.play_track_by_name (music_player.py);
  - the path resolvers find_music_usb and find_control_usb (utils.py),
    over an abstract filesystem model.

External effects (the VLC engine, logging, the real filesystem) are abstracted
as explicit action values or as function-valued parameters of the embedding;
the sequencing and the data of the Python code are kept verbatim.
-/

/-! ## Python string primitives -/

/-- The characters Python str.strip removes by default. -/
def pyIsSpace (c : Char) : Bool :=
  c == ' ' || c == '\t' || c == '\n' || c == '\r' || c == '\x0b' || c == '\x0c'

/-- Model of Python str.strip (no argument): remove leading and trailing
whitespace. -/
def pyTrim (s : String) : String :=
  ⟨(((s.toList.dropWhile pyIsSpace).reverse.dropWhile pyIsSpace).reverse)⟩

/-- Model of Python str.lower for the ASCII texts the appliance handles. -/
def pyLower (s : String) : String := ⟨s.toList.map Char.toLower⟩

/-- Model of Python str.startswith: the second argument is the tested
candidate head of the first. -/
def pyStartsWith (s pre : String) : Bool := pre.toList.isPrefixOf s.toList

/-- Model of Python str.endswith. -/
def pyEndsWith (s suf : String) : Bool :=
  suf.toList.reverse.isPrefixOf s.toList.reverse

/-- Model of Python s[n:] (drop the first n code points). -/
def pyDrop (n : Nat) (s : String) : String := ⟨s.toList.drop n⟩

/-- Substring test on character lists, modelling the Python operator
(needle in hay). The empty needle is contained in everything, as in Python. -/
def pyContainsL (needle : List Char) : List Char → Bool
  | [] => needle.isEmpty
  | c :: rest => needle.isPrefixOf (c :: rest) || pyContainsL needle rest

/-- Helper for pySplit: accumulates the current field in reverse. -/
def pySplitAux (sep : Char) : List Char → List Char → List (List Char)
  | [], acc => [acc.reverse]
  | c :: rest, acc =>
      if c == sep then acc.reverse :: pySplitAux sep rest []
      else pySplitAux sep rest (c :: acc)

/-- Model of Python str.split with a one-character separator: an input with
no separator yields a one-element list, as in Python. -/
def pySplit (sep : Char) (s : String) : List String :=
  (pySplitAux sep s.toList []).map String.mk

/-- Helper for pyReplaceDel, fueled by the length of the scanned list.
Removes every non-overlapping occurrence of the pattern, left to right. -/
def pyReplaceDelAux (pat : List Char) : Nat → List Char → List Char
  | _, [] => []
  | 0, l => l
  | Nat.succ fuel, c :: rest =>
      if pat.isPrefixOf (c :: rest) then
        pyReplaceDelAux pat fuel (List.drop (pat.length - 1) rest)
      else c :: pyReplaceDelAux pat fuel rest

/-- Model of Python s.replace(pat, two-quote-empty-string) for a nonempty
pattern: every non-overlapping occurrence of pat is deleted, scanning left
to right. main_loop uses exactly this form to strip command keywords. -/
def pyReplaceDel (s pat : String) : String :=
  ⟨pyReplaceDelAux pat.toList s.toList.length s.toList⟩

/-- Digit accumulation for pyIntParse; a single underscore is allowed
between digits, as Python int() accepts. -/
def pyDigitsAux (acc : Nat) : List Char → Option Nat
  | [] => some acc
  | '_' :: c :: cs =>
      if c.isDigit then pyDigitsAux (10 * acc + (c.toNat - 48)) cs else none
  | ['_'] => none
  | c :: cs =>
      if c.isDigit then pyDigitsAux (10 * acc + (c.toNat - 48)) cs else none

/-- A nonempty run of decimal digits (with optional underscore separators). -/
def pyDigits : List Char → Option Nat
  | [] => none
  | c :: cs => if c.isDigit then pyDigitsAux (c.toNat - 48) cs else none

/-- Model of Python int(str): optional surrounding whitespace, optional
sign, then a nonempty digit run; anything else raises ValueError, modelled
as none. -/
def pyIntParse (s : String) : Option Int :=
  match (pyTrim s).toList with
  | '+' :: cs => (pyDigits cs).map (fun n => (n : Int))
  | '-' :: cs => (pyDigits cs).map (fun n => -(n : Int))
  | cs => (pyDigits cs).map (fun n => (n : Int))

/-! ## Control-command interpreters -/

/-- The commands MusicPlayer._process_control_file (music_player.py,
lines 142-180) can take. noop is the silent early return on empty content;
invalidVolume is the caught ValueError or IndexError branch; unknown is the
final logged fallthrough. -/
inductive MPCmd where
  | noop
  | play
  | pause
  | stop
  | next
  | previous
  | setVolume (v : Int)
  | invalidVolume (raw : String)
  | playAlbum (name : String)
  | playTrack (name : String)
  | unknown (raw : String)
deriving DecidableEq

/-- Line-by-line embedding of the command dispatch of
MusicPlayer._process_control_file (music_player.py, lines 142-180).
The file content arrives already read; the code strips it, returns silently
when empty, then matches lowercased keywords, then the volume:, album: and
track: heads on the lowercased content, slicing payloads from the original
content. -/
def mpInterpret (input : String) : MPCmd :=
  let content := pyTrim input
  if content = "" then MPCmd.noop
  else
    let low := pyLower content
    if low = "play" then MPCmd.play
    else if low = "pause" then MPCmd.pause
    else if low = "stop" then MPCmd.stop
    else if low = "next" then MPCmd.next
    else if low = "previous" then MPCmd.previous
    else if pyStartsWith low "volume:" then
      match pyIntParse ((pySplit ':' content).getD 1 "") with
      | some v => MPCmd.setVolume v
      | none => MPCmd.invalidVolume content
    else if pyStartsWith low "album:" then MPCmd.playAlbum (pyTrim (pyDrop 6 content))
    else if pyStartsWith low "track:" then MPCmd.playTrack (pyTrim (pyDrop 6 content))
    else MPCmd.unknown content

/-- The outcomes of the control-file dispatch in main_loop (main.py,
lines 48-85): an Album request, a Track request, or the logged
invalid-format branch. -/
inductive MainCmd where
  | playAlbum (name : String)
  | playTrack (name : String)
  | invalidFormat (raw : String)
deriving DecidableEq

/-- Embedding of the control-file dispatch of main_loop (main.py, lines
48-85): the content is stripped on read, then matched case-sensitively
against the Album: and Track: heads; payloads are produced with
str.replace, which deletes every occurrence of the keyword, then stripped.
Anything else, including empty content, reaches the logged error branch. -/
def mainInterpret (input : String) : MainCmd :=
  let line := pyTrim input
  if pyStartsWith line "Album:" then
    MainCmd.playAlbum (pyTrim (pyReplaceDel line "Album:"))
  else if pyStartsWith line "Track:" then
    MainCmd.playTrack (pyTrim (pyReplaceDel line "Track:"))
  else MainCmd.invalidFormat line

/-! ## Volume setters -/

/-- Embedding of Player.set_volume (player.py, lines 225-231): the stored
volume is the second component, the reported success the first. The VLC
call carries no modelled state. An out-of-range argument is rejected and
the stored volume is left as it was. -/
def playerSetVolume (volume : Int) (stored : Int) : Bool × Int :=
  if 0 ≤ volume ∧ volume ≤ 100 then (true, volume) else (false, stored)

/-- Embedding of MusicPlayer.set_volume (music_player.py, lines 491-501):
the argument is clamped to the interval from 0 to 100, stored, and success
is reported. (The except branch only fires when the VLC handle itself
raises, which is outside the model.) -/
def mpSetVolume (volume : Int) : Bool × Int :=
  (true, max 0 (min 100 volume))

/-! ## Mount-change detector (usb_monitor.py) -/

/-- The cached resolved paths of USBMonitor: current_music_usb and
current_control_usb, each a path or None. -/
structure MonState where
  music : Option String
  control : Option String
deriving DecidableEq

/-- A callback invocation fired by USBMonitor: the music or control
callback, receiving the new path and the old path, in that order. -/
inductive MonEvent where
  | musicChange (newPath oldPath : Option String)
  | controlChange (newPath oldPath : Option String)
deriving DecidableEq

/-- Embedding of USBMonitor._check_usb_changes together with
_handle_music_usb_change and _handle_control_usb_change (usb_monitor.py,
lines 111-150): the freshly resolved pair (m, c) is compared against the
cached state; on a difference the cache is updated and the corresponding
callback fires once with (new, old). -/
def checkUsbChanges (st : MonState) (m c : Option String) :
    MonState × List MonEvent :=
  let step1 :=
    if m ≠ st.music then ({ st with music := m }, [MonEvent.musicChange m st.music])
    else (st, ([] : List MonEvent))
  let step2 :=
    if c ≠ step1.1.control then
      ({ step1.1 with control := c }, [MonEvent.controlChange c step1.1.control])
    else (step1.1, ([] : List MonEvent))
  (step2.1, step1.2 ++ step2.2)

/-- Iterate checkUsbChanges over a whole sequence of resolved mount states,
collecting every callback invocation in order. This models the polling or
udev-triggered re-check loop of USBMonitor. -/
def runMonitor (st : MonState) :
    List (Option String × Option String) → MonState × List MonEvent
  | [] => (st, [])
  | r :: rs =>
      let s := checkUsbChanges st r.1 r.2
      let t := runMonitor s.1 rs
      (t.1, s.2 ++ t.2)

/-- The (new, old) arguments of the music callback invocations, in order. -/
def musicEvents : List MonEvent → List (Option String × Option String)
  | [] => []
  | MonEvent.musicChange n o :: es => (n, o) :: musicEvents es
  | MonEvent.controlChange _ _ :: es => musicEvents es

/-- The (new, old) arguments of the control callback invocations, in order. -/
def controlEvents : List MonEvent → List (Option String × Option String)
  | [] => []
  | MonEvent.musicChange _ _ :: es => controlEvents es
  | MonEvent.controlChange n o :: es => (n, o) :: controlEvents es

/-- Specification-side description of the confirmed transitions of one
role: given the cached value, the list of (new, old) pairs at exactly the
positions where the resolved value differs from the cache. -/
def transitions (prev : Option String) :
    List (Option String) → List (Option String × Option String)
  | [] => []
  | x :: xs =>
      if x ≠ prev then (x, prev) :: transitions x xs else transitions prev xs

/-! ## Orchestrator step (main.py main_loop) and Player.stop (player.py) -/

/-- The designated control file name (config.py default). -/
def controlFileName : String := "control.txt"

/-- The loop-carried state of main_loop (main.py): previously_mounted and
last_control_path. -/
structure OrchState where
  previouslyMounted : Bool
  lastControlPath : Option String
deriving DecidableEq

/-- The externally visible actions one main_loop iteration can take against
the player and the control file. interpretExec records that the control
file under the given mount was read and its interpretation dispatched;
logMissingControlFile is the branch where os.path.isfile failed (or the
read raised and was caught). -/
inductive OrchAction where
  | stop
  | interpretExec (path : String) (cmd : MainCmd)
  | logMissingControlFile (path : String)
deriving DecidableEq

/-- Embedding of one iteration of main_loop (main.py, lines 26-107).
readFile models the filesystem: the content of the named file when
os.path.isfile holds and the read succeeds, none otherwise. controlUsb is
the value of find_control_usb_with_retry for this iteration. The returned
list holds the actions in program order. -/
def mainLoopStep (readFile : String → Option String) (st : OrchState)
    (controlUsb : Option String) : OrchState × List OrchAction :=
  match controlUsb with
  | some p =>
      if st.previouslyMounted = false ∨ st.lastControlPath ≠ some p then
        (⟨true, some p⟩,
          OrchAction.stop ::
            (match readFile (p ++ "/" ++ controlFileName) with
             | some text => [OrchAction.interpretExec p (mainInterpret text)]
             | none => [OrchAction.logMissingControlFile p]))
      else (st, [])
  | none =>
      if st.previouslyMounted = true then (⟨false, none⟩, [OrchAction.stop])
      else (st, [])

/-- The session-carrying state of Player (player.py): current_album,
current_album_folder, current_album_tracks, current_track_path. The Empty
controller state is the one with nothing loaded. -/
structure PlayerSt where
  currentAlbum : Option String
  currentAlbumFolder : Option String
  currentAlbumTracks : List String
  currentTrackPath : Option String
deriving DecidableEq

/-- The Empty state of the playback controller: no session loaded. -/
def emptyPlayer : PlayerSt := ⟨none, none, [], none⟩

/-- Embedding of Player.stop (player.py, lines 155-161): the media list
player is stopped and every session field is cleared, from any state. -/
def playerStop (_st : PlayerSt) : PlayerSt := ⟨none, none, [], none⟩

/-! ## Playback session state machine (music_player.py) -/

/-- The session-carrying state of MusicPlayer (music_player.py):
music_source, current_album, current_album_folder, current_album_tracks,
current_track_index, current_track_path, repeat_mode, single_track_mode.
The index is an integer, as in Python. -/
structure MPState where
  musicSource : Option String
  currentAlbum : Option String
  currentAlbumFolder : Option String
  tracks : List String
  trackIndex : Int
  currentTrackPath : Option String
  repeatMode : Bool
  singleTrackMode : Bool
deriving DecidableEq

/-- The externally visible outcome of a navigation or track-end step:
either a media load-and-play of the given index and path, or one of the
logged no-op branches of music_player.py. -/
inductive MPAction where
  | playMedia (index : Int) (path : String)
  | logNoTracks
  | logEndOfAlbum
  | logBeginningOfAlbum
  | logInvalidIndex (index : Int)
  | logAlbumCompleted
deriving DecidableEq

/-- Embedding of MusicPlayer._play_track_at_index (music_player.py, lines
344-354): an empty playlist or an out-of-range index is rejected with a
log; otherwise the index and current track path are stored and the track
is handed to the engine. The engine call itself is kept abstract. -/
def playTrackAtIndex (st : MPState) (index : Int) : MPState × MPAction :=
  if st.tracks = [] ∨ index < 0 ∨ (st.tracks.length : Int) ≤ index then
    (st, MPAction.logInvalidIndex index)
  else
    (({ st with trackIndex := index,
                currentTrackPath := some (st.tracks.getD index.toNat "") },
      MPAction.playMedia index (st.tracks.getD index.toNat "")))

/-- Embedding of MusicPlayer.next_track (music_player.py, lines 455-471):
no-op on an empty playlist; past the last index, wrap to 0 exactly when
repeat_mode holds, else log the end of the album and stay. -/
def nextTrack (st : MPState) : MPState × MPAction :=
  if st.tracks = [] then (st, MPAction.logNoTracks)
  else
    let nextIndex := st.trackIndex + 1
    if (st.tracks.length : Int) ≤ nextIndex then
      if st.repeatMode then playTrackAtIndex st 0
      else (st, MPAction.logEndOfAlbum)
    else playTrackAtIndex st nextIndex

/-- Embedding of MusicPlayer.previous_track (music_player.py, lines
473-489): no-op on an empty playlist; below index 0, wrap to the last
index exactly when repeat_mode holds, else log and stay. -/
def previousTrack (st : MPState) : MPState × MPAction :=
  if st.tracks = [] then (st, MPAction.logNoTracks)
  else
    let prevIndex := st.trackIndex - 1
    if prevIndex < 0 then
      if st.repeatMode then playTrackAtIndex st ((st.tracks.length : Int) - 1)
      else (st, MPAction.logBeginningOfAlbum)
    else playTrackAtIndex st prevIndex

/-- Embedding of MusicPlayer._on_track_end (music_player.py, lines
559-575): in single-track mode the same index is replayed; otherwise with
repeat_mode set or more tracks remaining, next_track runs; otherwise the
album is logged as completed and the session is left in place. -/
def onTrackEnd (st : MPState) : MPState × MPAction :=
  if st.singleTrackMode then playTrackAtIndex st st.trackIndex
  else if st.repeatMode = true ∨ st.trackIndex < (st.tracks.length : Int) - 1 then
    nextTrack st
  else (st, MPAction.logAlbumCompleted)

/-! ## Track search (music_player.py play_track_by_name) -/

/-- Part of the path after the last slash, modelling os.path.basename on
the slash-joined paths the player builds. -/
def basename (s : String) : String :=
  ⟨(s.toList.reverse.takeWhile (fun c => !(c == '/'))).reverse⟩

/-- Part of the path before the last slash, modelling os.path.dirname on
the single-slash paths the player builds. -/
def dirname (s : String) : String :=
  match s.toList.reverse.dropWhile (fun c => !(c == '/')) with
  | '/' :: rest => ⟨rest.reverse⟩
  | _ => ""

/-- The filename without its extension at the last dot, modelling
os.path.splitext for the names that reach it here (audio filenames that do
not start with a dot, since hidden files are filtered out before). -/
def stem (s : String) : String :=
  match s.toList.reverse.dropWhile (fun c => !(c == '.')) with
  | '.' :: rest => ⟨rest.reverse⟩
  | _ => s

/-- The audio extensions accepted by _find_tracks_by_name
(music_player.py, line 249). -/
def audioExts : List String := [".mp3", ".wav", ".flac", ".m4a", ".aac", ".ogg"]

/-- Lowercased-extension test, modelling file.lower().endswith(tuple). -/
def isAudioFile (name : String) : Bool :=
  audioExts.any (fun ext => pyEndsWith (pyLower name) ext)

/-- Embedding of MusicPlayer._is_valid_audio_file (music_player.py, lines
326-342): resource forks, hidden files and the listed system files are
rejected. -/
def isValidAudioFile (filename : String) : Bool :=
  if pyStartsWith filename "._" then false
  else if pyStartsWith filename "." then false
  else if filename = "Thumbs.db" ∨ filename = "desktop.ini" ∨ filename = ".DS_Store" then false
  else true

/-- One file met by os.walk: the directory it sits in and its name. A walk
is a list of these in traversal order. -/
structure FsEntry where
  dir : String
  name : String
deriving DecidableEq

/-- The accumulation phase of _find_tracks_by_name (music_player.py, lines
252-261): in traversal order, keep audio files that pass the validity
filter and contain the lowercased search term in their lowercased name,
joined to full paths. -/
def candidatePaths (trackName : String) (walk : List FsEntry) : List String :=
  (walk.filter (fun f =>
      isAudioFile f.name && isValidAudioFile f.name &&
        pyContainsL (pyLower trackName).toList (pyLower f.name).toList)).map
    (fun f => f.dir ++ "/" ++ f.name)

/-- Embedding of match_quality (music_player.py, lines 264-279): rank 0 for
a lowercased filename exactly equal to the term plus .mp3 or .flac, rank 1
for an exact stem match, rank 2 for a filename starting with the term,
rank 3 otherwise. -/
def matchQuality (trackName path : String) : Nat :=
  if pyLower (basename path) = pyLower trackName ++ ".mp3" ∨
      pyLower (basename path) = pyLower trackName ++ ".flac" then 0
  else if stem (pyLower (basename path)) = pyLower trackName then 1
  else if pyStartsWith (pyLower (basename path)) (pyLower trackName) then 2
  else 3

/-- Python list.sort with the match_quality key is a stable sort with keys
in the range 0 to 3, so its result is exactly the concatenation of the four
equal-key buckets in their original order. -/
def sortByQuality (trackName : String) (l : List String) : List String :=
  (l.filter fun p => matchQuality trackName p == 0) ++
  (l.filter fun p => matchQuality trackName p == 1) ++
  (l.filter fun p => matchQuality trackName p == 2) ++
  (l.filter fun p => matchQuality trackName p == 3)

/-- Embedding of MusicPlayer._find_tracks_by_name (music_player.py, lines
246-287): accumulate candidates in walk order, then stably sort them by
match_quality. -/
def findTracksByName (trackName : String) (walk : List FsEntry) : List String :=
  sortByQuality trackName (candidatePaths trackName walk)

/-- Embedding of MusicPlayer.play_track_by_name (music_player.py, lines
214-244): without a music source or without a match, the state is left
unchanged and failure is reported; otherwise the first match becomes a
one-track session with single_track_mode set (repeat_mode untouched) and
the track is handed to the engine. The engine load is kept abstract, so
the returned flag records that playback of the match was started. -/
def playTrackByName (trackName : String) (walk : List FsEntry) (st : MPState) :
    MPState × Bool :=
  if st.musicSource = none then (st, false)
  else
    match findTracksByName trackName walk with
    | [] => (st, false)
    | path :: _ =>
        ({ st with
            currentAlbum := some ("Single Track: " ++ basename path),
            currentAlbumFolder := some (dirname path),
            tracks := [path],
            trackIndex := 0,
            currentTrackPath := some path,
            singleTrackMode := true }, true)

/-- Ranking written from the specification text for comparison: exact-stem
match before a name starting with the term, before a mere substring match,
with no further distinctions. -/
def specRank (trackName path : String) : Nat :=
  if stem (pyLower (basename path)) = pyLower trackName then 0
  else if pyStartsWith (pyLower (basename path)) (pyLower trackName) then 1
  else 2

/-! ## Path resolution (utils.py) -/

/-- Abstract filesystem for the resolvers: the two environment overrides,
the deep accessibility verdict of is_usb_accessible per path, the
os.path.isfile verdict per path, whether opening and reading the path
succeeds, and the listing of the /media/pi directory when it exists. -/
structure Fs where
  envMusic : Option String
  envControl : Option String
  accessible : String → Bool
  isFile : String → Bool
  readOk : String → Bool
  mediaPi : Option (List String)

/-- The /media/pi scan of find_music_usb (utils.py, lines 96-110): the
first listed item whose name starts with MUSIC and whose mount passes the
accessibility check. -/
def firstMusicMount (fs : Fs) : List String → Option String
  | [] => none
  | item :: rest =>
      if pyStartsWith item "MUSIC" then
        if fs.accessible ("/media/pi/" ++ item) then some ("/media/pi/" ++ item)
        else firstMusicMount fs rest
      else firstMusicMount fs rest

/-- The whole priority-4 step of find_music_usb: nothing when /media/pi
does not exist (or raises), otherwise the scan of its listing. -/
def mediaScanMusic (fs : Fs) : Option String :=
  match fs.mediaPi with
  | some items => firstMusicMount fs items
  | none => none

/-- Priorities 2 to 5 of find_music_usb (utils.py, lines 76-123): native
bind mount, Docker shared mount, /media/pi scan, then the legacy mounts. -/
def findMusicUsbRest (fs : Fs) : Option String :=
  if fs.accessible "/home/pi/usb/music" then some "/home/pi/usb/music"
  else if fs.accessible "/shared/usb/music" then some "/shared/usb/music"
  else
    match mediaScanMusic fs with
    | some m => some m
    | none =>
        if fs.accessible "/home/pi/usb" then some "/home/pi/usb"
        else if fs.accessible "/mnt/usb" then some "/mnt/usb"
        else none

/-- Embedding of find_music_usb (utils.py, lines 54-123): the environment
override wins when accessible, otherwise the fixed priority chain runs. -/
def findMusicUsb (fs : Fs) : Option String :=
  match fs.envMusic with
  | some env => if fs.accessible env then some env else findMusicUsbRest fs
  | none => findMusicUsbRest fs

/-- Does the directory hold the designated control file, by os.path.isfile
(no read is attempted). -/
def hasControlFile (fs : Fs) (p : String) : Bool :=
  fs.isFile (p ++ "/" ++ controlFileName)

/-- The /media/pi scan of find_control_usb (utils.py, lines 170-185): the
first listed item whose name starts with PLAY_CARD, is accessible, and
holds the control file. -/
def firstControlMount (fs : Fs) : List String → Option String
  | [] => none
  | item :: rest =>
      if pyStartsWith item "PLAY_CARD" then
        if fs.accessible ("/media/pi/" ++ item) &&
            hasControlFile fs ("/media/pi/" ++ item) then
          some ("/media/pi/" ++ item)
        else firstControlMount fs rest
      else firstControlMount fs rest

/-- The whole priority-4 step of find_control_usb: nothing when /media/pi
does not exist (or raises), otherwise the scan of its listing. -/
def mediaScanControl (fs : Fs) : Option String :=
  match fs.mediaPi with
  | some items => firstControlMount fs items
  | none => none

/-- Priorities 2 to 5 of find_control_usb (utils.py, lines 148-196):
native bind mount, Docker shared mount, /media/pi scan, then the music USB
when the control file sits on it. -/
def findControlUsbRest (fs : Fs) : Option String :=
  if fs.accessible "/home/pi/usb/playcard" && hasControlFile fs "/home/pi/usb/playcard" then
    some "/home/pi/usb/playcard"
  else if fs.accessible "/shared/usb/playcard" && hasControlFile fs "/shared/usb/playcard" then
    some "/shared/usb/playcard"
  else
    match mediaScanControl fs with
    | some m => some m
    | none =>
        match findMusicUsb fs with
        | some m => if hasControlFile fs m then some m else none
        | none => none

/-- Embedding of find_control_usb (utils.py, lines 125-196): the
environment override wins when accessible and holding the control file,
otherwise the fixed priority chain runs. -/
def findControlUsb (fs : Fs) : Option String :=
  match fs.envControl with
  | some env =>
      if fs.accessible env && hasControlFile fs env then some env
      else findControlUsbRest fs
  | none => findControlUsbRest fs

/-! ## Helper lemmas -/

/-- pyStartsWith coincides with the list prefix relation. -/
theorem pyStartsWith_iff (s pre : String) :
    pyStartsWith s pre = true ↔ pre.toList <+: s.toList := by
  simp [pyStartsWith]

/-- Two incomparable heads cannot both start the same string. -/
theorem pyStartsWith_disjoint {s p q : String} (h : pyStartsWith s p = true)
    (h1 : ¬ (p.toList <+: q.toList)) (h2 : ¬ (q.toList <+: p.toList)) :
    pyStartsWith s q = false := by
  by_contra hq
  rw [Bool.not_eq_false] at hq
  rcases List.prefix_or_prefix_of_prefix ((pyStartsWith_iff s p).mp h)
      ((pyStartsWith_iff s q).mp hq) with hc | hc
  · exact h1 hc
  · exact h2 hc

/-! ## C3: SetVolume -/

/-- C3 counterexample: the claim says SetVolume(150) succeeds and stores
100 in every player state, but Player.set_volume (player.py) rejects 150,
reports failure and leaves the stored volume (here 70) unchanged. -/
theorem playerSetVolume_150_fails : playerSetVolume 150 70 = (false, 70) := by
  decide

/-- C3 amended: MusicPlayer.set_volume clamps its argument into the
interval from 0 to 100 and always reports success (so 150 stores 100 and
-5 stores 0), while Player.set_volume succeeds exactly on arguments
already in that interval and otherwise reports failure with the stored
volume unchanged. -/
theorem setVolume_clamping_split :
    (∀ v : Int, (mpSetVolume v).1 = true ∧ 0 ≤ (mpSetVolume v).2 ∧ (mpSetVolume v).2 ≤ 100) ∧
    mpSetVolume 150 = (true, 100) ∧ mpSetVolume (-5) = (true, 0) ∧
    (∀ v stored : Int, 0 ≤ v → v ≤ 100 → playerSetVolume v stored = (true, v)) ∧
    (∀ v stored : Int, v < 0 ∨ 100 < v → playerSetVolume v stored = (false, stored)) := by
  refine ⟨fun v => ⟨rfl, ?_, ?_⟩, by decide, by decide,
    fun v stored h1 h2 => ?_, fun v stored h => ?_⟩
  · exact le_max_left 0 _
  · exact max_le (by norm_num) (min_le_left 100 v)
  · simp only [playerSetVolume]
    rw [if_pos ⟨h1, h2⟩]
  · simp only [playerSetVolume]
    rw [if_neg (by omega)]

/-- C3 witness: concrete instances of the amended volume behavior. -/
theorem setVolume_clamping_split_witness :
    playerSetVolume 42 7 = (true, 42) ∧ playerSetVolume (-5) 7 = (false, 7) :=
  ⟨setVolume_clamping_split.2.2.2.1 42 7 (by decide) (by decide),
   setVolume_clamping_split.2.2.2.2 (-5) 7 (by decide)⟩

/-! ## C4: empty control input -/

/-- C4 counterexample: in the main_loop dispatch (main.py), the empty
input lands in the invalidFormat branch, the one that logs the
not-in-valid-format error, instead of a silent no-op distinct from an
unknown command. -/
theorem mainInterpret_empty_logged_error :
    mainInterpret "" = MainCmd.invalidFormat "" := by
  decide

/-- C4 amended: the MusicPlayer interpreter maps every input that is empty
after trimming to the silent noop (no log, no state change), while the
main_loop dispatch sends the same inputs to its logged invalid-format
branch, exactly as it treats an unknown command. -/
theorem emptyInput_noop_vs_error :
    (∀ s : String, pyTrim s = "" → mpInterpret s = MPCmd.noop) ∧
    (∀ s : String, pyTrim s = "" → mainInterpret s = MainCmd.invalidFormat "") := by
  constructor
  · intro s h
    simp only [mpInterpret, h]
    decide
  · intro s h
    simp only [mainInterpret, h]
    decide

/-- C4 witness: whitespace-only inputs hit both branches of the amended
claim. -/
theorem emptyInput_noop_vs_error_witness :
    mpInterpret "  " = MPCmd.noop ∧ mainInterpret "\n" = MainCmd.invalidFormat "" :=
  ⟨emptyInput_noop_vs_error.1 "  " (by decide),
   emptyInput_noop_vs_error.2 "\n" (by decide)⟩

/-! ## C5: Album and Track heads -/

/-- C5 counterexample: the claim says the prefix match is case-sensitive,
so an input beginning with lowercase album: must not be an Album command;
but MusicPlayer._process_control_file matches on the lowercased content
and accepts it. -/
theorem mpInterpret_lowercase_album_accepted :
    mpInterpret "album:Jazz" = MPCmd.playAlbum "Jazz" := rfl

/-- C5 amended: the MusicPlayer interpreter matches the album: and track:
heads case-insensitively (on the lowercased content) and passes through
the text after the six-character head, trimmed; the main_loop dispatch
matches Album: and Track: case-sensitively but derives the payload with
str.replace, which deletes every occurrence of the keyword before
trimming, so a payload containing the keyword is not passed through
verbatim. -/
theorem albumTrack_heads_and_payloads :
    (∀ s : String, pyStartsWith (pyLower (pyTrim s)) "album:" = true →
        mpInterpret s = MPCmd.playAlbum (pyTrim (pyDrop 6 (pyTrim s)))) ∧
    (∀ s : String, pyStartsWith (pyLower (pyTrim s)) "track:" = true →
        mpInterpret s = MPCmd.playTrack (pyTrim (pyDrop 6 (pyTrim s)))) ∧
    (∀ s : String, pyStartsWith (pyTrim s) "Album:" = true →
        mainInterpret s = MainCmd.playAlbum (pyTrim (pyReplaceDel (pyTrim s) "Album:"))) ∧
    (∀ s : String, pyStartsWith (pyTrim s) "Track:" = true →
        mainInterpret s = MainCmd.playTrack (pyTrim (pyReplaceDel (pyTrim s) "Track:"))) ∧
    mainInterpret "Album: X Album: Y" = MainCmd.playAlbum "X  Y" := by
  refine ⟨fun s h => ?_, fun s h => ?_, fun s h => ?_, fun s h => ?_, by decide⟩
  · have hne : ¬ (pyTrim s = "") := by
      intro e
      rw [e] at h
      exact absurd h (by decide)
    have hplay : ¬ (pyLower (pyTrim s) = "play") := fun e => absurd (e ▸ h) (by decide)
    have hpause : ¬ (pyLower (pyTrim s) = "pause") := fun e => absurd (e ▸ h) (by decide)
    have hstop : ¬ (pyLower (pyTrim s) = "stop") := fun e => absurd (e ▸ h) (by decide)
    have hnext : ¬ (pyLower (pyTrim s) = "next") := fun e => absurd (e ▸ h) (by decide)
    have hprev : ¬ (pyLower (pyTrim s) = "previous") := fun e => absurd (e ▸ h) (by decide)
    have hvol : pyStartsWith (pyLower (pyTrim s)) "volume:" = false :=
      pyStartsWith_disjoint h (by decide) (by decide)
    simp only [mpInterpret]
    rw [if_neg hne, if_neg hplay, if_neg hpause, if_neg hstop, if_neg hnext,
      if_neg hprev, if_neg (by simp [hvol]), if_pos h]
  · have hne : ¬ (pyTrim s = "") := by
      intro e
      rw [e] at h
      exact absurd h (by decide)
    have hplay : ¬ (pyLower (pyTrim s) = "play") := fun e => absurd (e ▸ h) (by decide)
    have hpause : ¬ (pyLower (pyTrim s) = "pause") := fun e => absurd (e ▸ h) (by decide)
    have hstop : ¬ (pyLower (pyTrim s) = "stop") := fun e => absurd (e ▸ h) (by decide)
    have hnext : ¬ (pyLower (pyTrim s) = "next") := fun e => absurd (e ▸ h) (by decide)
    have hprev : ¬ (pyLower (pyTrim s) = "previous") := fun e => absurd (e ▸ h) (by decide)
    have hvol : pyStartsWith (pyLower (pyTrim s)) "volume:" = false :=
      pyStartsWith_disjoint h (by decide) (by decide)
    have halb : pyStartsWith (pyLower (pyTrim s)) "album:" = false :=
      pyStartsWith_disjoint h (by decide) (by decide)
    simp only [mpInterpret]
    rw [if_neg hne, if_neg hplay, if_neg hpause, if_neg hstop, if_neg hnext,
      if_neg hprev, if_neg (by simp [hvol]), if_neg (by simp [halb]), if_pos h]
  · simp only [mainInterpret]
    rw [if_pos h]
  · have halb : pyStartsWith (pyTrim s) "Album:" = false :=
      pyStartsWith_disjoint h (by decide) (by decide)
    simp only [mainInterpret]
    rw [if_neg (by simp [halb]), if_pos h]

/-- C5 witness: concrete head matches with their trimmed payloads. -/
theorem albumTrack_heads_and_payloads_witness :
    mpInterpret " Album: Jazz " = MPCmd.playAlbum "Jazz" ∧
    mainInterpret " Track: solo" = MainCmd.playTrack "solo" := by
  constructor
  · rw [albumTrack_heads_and_payloads.1 " Album: Jazz " (by decide)]
    decide
  · rw [albumTrack_heads_and_payloads.2.2.2.1 " Track: solo" (by decide)]
    decide

/-! ## C6: volume payload parsing -/

/-- C6 counterexample: the payload of volume:5:0 is 5:0, which is not an
integer, yet the interpreter parses only the first colon-separated field
and yields SetVolume 5 rather than an invalid command. -/
theorem mpInterpret_volume_colon_payload :
    mpInterpret "volume:5:0" = MPCmd.setVolume 5 ∧ pyIntParse "5:0" = none :=
  ⟨rfl, rfl⟩

/-- C6 amended: on an input whose lowercased trim starts with volume:, the
MusicPlayer interpreter applies Python int() to the second colon-separated
field of the content (not to the whole payload after the head); a field
that is not an integer yields the logged invalidVolume outcome, and the
interpreter is a total function, so no input raises. -/
theorem volume_first_field_parse (s : String)
    (h : pyStartsWith (pyLower (pyTrim s)) "volume:" = true) :
    mpInterpret s =
      match pyIntParse ((pySplit ':' (pyTrim s)).getD 1 "") with
      | some v => MPCmd.setVolume v
      | none => MPCmd.invalidVolume (pyTrim s) := by
  have hne : ¬ (pyTrim s = "") := by
    intro e
    rw [e] at h
    exact absurd h (by decide)
  have hplay : ¬ (pyLower (pyTrim s) = "play") := fun e => absurd (e ▸ h) (by decide)
  have hpause : ¬ (pyLower (pyTrim s) = "pause") := fun e => absurd (e ▸ h) (by decide)
  have hstop : ¬ (pyLower (pyTrim s) = "stop") := fun e => absurd (e ▸ h) (by decide)
  have hnext : ¬ (pyLower (pyTrim s) = "next") := fun e => absurd (e ▸ h) (by decide)
  have hprev : ¬ (pyLower (pyTrim s) = "previous") := fun e => absurd (e ▸ h) (by decide)
  simp only [mpInterpret]
  rw [if_neg hne, if_neg hplay, if_neg hpause, if_neg hstop, if_neg hnext,
    if_neg hprev, if_pos h]

/-- C6 witness: an integer field with surrounding whitespace parses, a
non-numeric field is rejected without raising. -/
theorem volume_first_field_parse_witness :
    mpInterpret "volume: 42" = MPCmd.setVolume 42 ∧
    mpInterpret "volume:abc" = MPCmd.invalidVolume "volume:abc" := by
  constructor
  · rw [volume_first_field_parse "volume: 42" (by decide)]
    decide
  · rw [volume_first_field_parse "volume:abc" (by decide)]
    decide

/-! ## C1: mount-change callbacks -/

/-- After one re-check the cache always equals the freshly resolved pair. -/
theorem checkUsbChanges_fst (st : MonState) (m c : Option String) :
    (checkUsbChanges st m c).1 = ⟨m, c⟩ := by
  cases st with
  | mk mu co =>
    by_cases hm : m = mu
    · by_cases hc : c = co
      · simp [checkUsbChanges, hm, hc]
      · simp [checkUsbChanges, hm, hc]
    · by_cases hc : c = co
      · simp [checkUsbChanges, hm, hc]
      · simp [checkUsbChanges, hm, hc]

/-- One re-check fires the music callback exactly on a difference, with
(new, old). -/
theorem checkUsbChanges_musicEvents (st : MonState) (m c : Option String) :
    musicEvents (checkUsbChanges st m c).2 =
      if m ≠ st.music then [(m, st.music)] else [] := by
  cases st with
  | mk mu co =>
    by_cases hm : m = mu
    · by_cases hc : c = co
      · simp [checkUsbChanges, hm, hc, musicEvents]
      · simp [checkUsbChanges, hm, hc, musicEvents]
    · by_cases hc : c = co
      · simp [checkUsbChanges, hm, hc, musicEvents]
      · simp [checkUsbChanges, hm, hc, musicEvents]

/-- One re-check fires the control callback exactly on a difference, with
(new, old). -/
theorem checkUsbChanges_controlEvents (st : MonState) (m c : Option String) :
    controlEvents (checkUsbChanges st m c).2 =
      if c ≠ st.control then [(c, st.control)] else [] := by
  cases st with
  | mk mu co =>
    by_cases hm : m = mu
    · by_cases hc : c = co
      · simp [checkUsbChanges, hm, hc, controlEvents]
      · simp [checkUsbChanges, hm, hc, controlEvents]
    · by_cases hc : c = co
      · simp [checkUsbChanges, hm, hc, controlEvents]
      · simp [checkUsbChanges, hm, hc, controlEvents]

/-- musicEvents distributes over concatenated event logs. -/
theorem musicEvents_append (a b : List MonEvent) :
    musicEvents (a ++ b) = musicEvents a ++ musicEvents b := by
  induction a with
  | nil => rfl
  | cons e es ih => cases e <;> simp [musicEvents, ih]

/-- controlEvents distributes over concatenated event logs. -/
theorem controlEvents_append (a b : List MonEvent) :
    controlEvents (a ++ b) = controlEvents a ++ controlEvents b := by
  induction a with
  | nil => rfl
  | cons e es ih => cases e <;> simp [controlEvents, ih]

/-- C1: over any sequence of resolved mount states, the music and control
callbacks of USBMonitor fire exactly once per change of the resolved path
(comparing against the cached value), never on a re-check that resolves to
the cached path, and each invocation receives the pair (newPath, oldPath).
The invocation lists coincide with the confirmed-transition lists of the
two projections of the input sequence. -/
theorem monitorCallbacks_exactly_once (st : MonState)
    (inputs : List (Option String × Option String)) :
    musicEvents (runMonitor st inputs).2 = transitions st.music (inputs.map Prod.fst) ∧
    controlEvents (runMonitor st inputs).2 = transitions st.control (inputs.map Prod.snd) := by
  induction inputs generalizing st with
  | nil => exact ⟨rfl, rfl⟩
  | cons r rs ih =>
    obtain ⟨m, c⟩ := r
    have hst : (checkUsbChanges st m c).1 = ⟨m, c⟩ := checkUsbChanges_fst st m c
    constructor
    · show musicEvents ((checkUsbChanges st m c).2 ++
          (runMonitor (checkUsbChanges st m c).1 rs).2) = _
      rw [musicEvents_append, checkUsbChanges_musicEvents, hst, (ih ⟨m, c⟩).1]
      show _ = transitions st.music (m :: rs.map Prod.fst)
      by_cases hm : m = st.music
      · simp [transitions, hm]
      · simp [transitions, hm]
    · show controlEvents ((checkUsbChanges st m c).2 ++
          (runMonitor (checkUsbChanges st m c).1 rs).2) = _
      rw [controlEvents_append, checkUsbChanges_controlEvents, hst, (ih ⟨m, c⟩).2]
      show _ = transitions st.control (c :: rs.map Prod.snd)
      by_cases hc : c = st.control
      · simp [transitions, hc]
      · simp [transitions, hc]

/-! ## C2: orchestrator stop-then-read -/

/-- C2: one main_loop iteration, on a transition to a mounted control path
(fresh mount or path change), stops the player first and then performs
exactly one read-interpret-execute of the control file under that path (or
logs its absence); on a transition to unmounted it emits exactly the stop
action and reads nothing; and Player.stop sends every player state to the
Empty state. -/
theorem orchestratorStep_stop_then_read (readFile : String → Option String)
    (st : OrchState) (p : String) :
    (st.previouslyMounted = false ∨ st.lastControlPath ≠ some p →
        mainLoopStep readFile st (some p) =
          (⟨true, some p⟩,
            OrchAction.stop ::
              (match readFile (p ++ "/" ++ controlFileName) with
               | some text => [OrchAction.interpretExec p (mainInterpret text)]
               | none => [OrchAction.logMissingControlFile p]))) ∧
    (st.previouslyMounted = true →
        mainLoopStep readFile st none = (⟨false, none⟩, [OrchAction.stop])) ∧
    (∀ ps : PlayerSt, playerStop ps = emptyPlayer) := by
  refine ⟨fun h => ?_, fun h => ?_, fun ps => rfl⟩
  · simp only [mainLoopStep]
    rw [if_pos h]
  · simp only [mainLoopStep]
    rw [if_pos h]

/-- C2 witness: a fresh mount with readable content, and an unmount from a
mounted state. -/
theorem orchestratorStep_stop_then_read_witness :
    mainLoopStep (fun _ => some "Album: Jazz") ⟨false, none⟩ (some "/media/pi/PLAY_CARD") =
      (⟨true, some "/media/pi/PLAY_CARD"⟩,
        [OrchAction.stop,
         OrchAction.interpretExec "/media/pi/PLAY_CARD" (MainCmd.playAlbum "Jazz")]) ∧
    mainLoopStep (fun _ => none) ⟨true, some "/media/pi/PLAY_CARD"⟩ none =
      (⟨false, none⟩, [OrchAction.stop]) := by
  constructor
  · rw [(orchestratorStep_stop_then_read (fun _ => some "Album: Jazz")
      ⟨false, none⟩ "/media/pi/PLAY_CARD").1 (Or.inl rfl)]
    decide
  · exact (orchestratorStep_stop_then_read (fun _ => none)
      ⟨true, some "/media/pi/PLAY_CARD"⟩ "/media/pi/PLAY_CARD").2.1 rfl

/-! ## C7: track-end transitions -/

/-- C7: for a loaded session (nonempty playlist, index in range), the
track-end handler replays the same index in single-track mode; otherwise
it advances by one while tracks remain, wraps from the last index to 0
exactly when the repeat flag (LoopAlbum) is set, and with the repeat flag
clear at the last index it only logs completion, retaining the session
unchanged (Loaded-Stopped). -/
theorem trackEnd_transitions (st : MPState) (hne : st.tracks ≠ [])
    (h0 : 0 ≤ st.trackIndex) (hlt : st.trackIndex < (st.tracks.length : Int)) :
    (st.singleTrackMode = true →
        onTrackEnd st =
          ({ st with currentTrackPath := some (st.tracks.getD st.trackIndex.toNat "") },
            MPAction.playMedia st.trackIndex (st.tracks.getD st.trackIndex.toNat ""))) ∧
    (st.singleTrackMode = false → st.trackIndex < (st.tracks.length : Int) - 1 →
        onTrackEnd st =
          ({ st with trackIndex := st.trackIndex + 1,
                     currentTrackPath := some (st.tracks.getD (st.trackIndex + 1).toNat "") },
            MPAction.playMedia (st.trackIndex + 1)
              (st.tracks.getD (st.trackIndex + 1).toNat ""))) ∧
    (st.singleTrackMode = false → st.trackIndex = (st.tracks.length : Int) - 1 →
        st.repeatMode = true →
        onTrackEnd st =
          ({ st with trackIndex := 0, currentTrackPath := some (st.tracks.getD 0 "") },
            MPAction.playMedia 0 (st.tracks.getD 0 ""))) ∧
    (st.singleTrackMode = false → st.trackIndex = (st.tracks.length : Int) - 1 →
        st.repeatMode = false →
        onTrackEnd st = (st, MPAction.logAlbumCompleted)) := by
  have hpos : 0 < st.tracks.length := List.length_pos.mpr hne
  refine ⟨fun hs => ?_, fun hs h2 => ?_, fun hs heq hr => ?_, fun hs heq hr => ?_⟩
  · simp only [onTrackEnd, hs, if_true]
    simp only [playTrackAtIndex]
    rw [if_neg (by push_neg; exact ⟨hne, by omega, by omega⟩)]
    rw [hs]
  · simp only [onTrackEnd, hs]
    rw [if_neg (by simp), if_pos (Or.inr h2)]
    simp only [nextTrack]
    rw [if_neg hne, if_neg (by omega)]
    simp only [playTrackAtIndex]
    rw [if_neg (by push_neg; exact ⟨hne, by omega, by omega⟩)]
    rw [hs]
  · simp only [onTrackEnd, hs]
    rw [if_neg (by simp), if_pos (Or.inl hr)]
    simp only [nextTrack]
    rw [if_neg hne, if_pos (by omega), if_pos hr]
    simp only [playTrackAtIndex]
    rw [if_neg (by push_neg; exact ⟨hne, by omega, by omega⟩)]
    simp [hs]
  · simp only [onTrackEnd, hs]
    rw [if_neg (by simp), if_neg (by push_neg; exact ⟨by simp [hr], by omega⟩)]

/-- C7 witness: with two tracks, repeat on and single-track mode off, a
track-end at the last index wraps to index 0 and restarts playback. -/
theorem trackEnd_transitions_witness :
    onTrackEnd ⟨some "/m", some "A", some "/m/A", ["/m/A/1.mp3", "/m/A/2.mp3"], 1,
        some "/m/A/2.mp3", true, false⟩ =
      (⟨some "/m", some "A", some "/m/A", ["/m/A/1.mp3", "/m/A/2.mp3"], 0,
        some "/m/A/1.mp3", true, false⟩, MPAction.playMedia 0 "/m/A/1.mp3") := by
  have h := trackEnd_transitions
    ⟨some "/m", some "A", some "/m/A", ["/m/A/1.mp3", "/m/A/2.mp3"], 1,
      some "/m/A/2.mp3", true, false⟩ (by decide) (by decide) (by decide)
  exact h.2.2.1 rfl (by decide) rfl

/-! ## C8: Next and Previous -/

/-- C8 counterexample: a loaded single-track session (repeat mode
LoopSingleTrack in the terms of the claim: single_track_mode set) with the
global repeat flag clear sits at the playlist boundary, and Next does not
wrap: it stays and logs the boundary, because next_track consults only
repeat_mode. -/
theorem nextTrack_singleTrackMode_no_wrap :
    nextTrack ⟨some "/m", some "Single Track: t.mp3", some "/m", ["/m/t.mp3"], 0,
        some "/m/t.mp3", false, true⟩ =
      (⟨some "/m", some "Single Track: t.mp3", some "/m", ["/m/t.mp3"], 0,
        some "/m/t.mp3", false, true⟩, MPAction.logEndOfAlbum) ∧
    (⟨some "/m", some "Single Track: t.mp3", some "/m", ["/m/t.mp3"], 0,
        some "/m/t.mp3", false, true⟩ : MPState).singleTrackMode = true := by
  decide

/-- C8 amended: Next and Previous are no-ops on an empty playlist;
otherwise they move the index by one, and at a playlist boundary the index
wraps exactly when the repeat flag (repeat_mode) is set, regardless of
single-track mode; with the repeat flag clear the index stays and only a
boundary notice is logged. -/
theorem nextPrev_transitions (st : MPState) :
    (st.tracks = [] →
        nextTrack st = (st, MPAction.logNoTracks) ∧
        previousTrack st = (st, MPAction.logNoTracks)) ∧
    (st.tracks ≠ [] → 0 ≤ st.trackIndex → st.trackIndex < (st.tracks.length : Int) →
      (st.trackIndex + 1 < (st.tracks.length : Int) →
          nextTrack st =
            ({ st with trackIndex := st.trackIndex + 1,
                       currentTrackPath := some (st.tracks.getD (st.trackIndex + 1).toNat "") },
              MPAction.playMedia (st.trackIndex + 1)
                (st.tracks.getD (st.trackIndex + 1).toNat ""))) ∧
      (st.trackIndex + 1 = (st.tracks.length : Int) → st.repeatMode = true →
          nextTrack st =
            ({ st with trackIndex := 0, currentTrackPath := some (st.tracks.getD 0 "") },
              MPAction.playMedia 0 (st.tracks.getD 0 ""))) ∧
      (st.trackIndex + 1 = (st.tracks.length : Int) → st.repeatMode = false →
          nextTrack st = (st, MPAction.logEndOfAlbum)) ∧
      (0 < st.trackIndex →
          previousTrack st =
            ({ st with trackIndex := st.trackIndex - 1,
                       currentTrackPath := some (st.tracks.getD (st.trackIndex - 1).toNat "") },
              MPAction.playMedia (st.trackIndex - 1)
                (st.tracks.getD (st.trackIndex - 1).toNat ""))) ∧
      (st.trackIndex = 0 → st.repeatMode = true →
          previousTrack st =
            ({ st with trackIndex := (st.tracks.length : Int) - 1,
                       currentTrackPath :=
                         some (st.tracks.getD ((st.tracks.length : Int) - 1).toNat "") },
              MPAction.playMedia ((st.tracks.length : Int) - 1)
                (st.tracks.getD ((st.tracks.length : Int) - 1).toNat ""))) ∧
      (st.trackIndex = 0 → st.repeatMode = false →
          previousTrack st = (st, MPAction.logBeginningOfAlbum))) := by
  refine ⟨fun h => ⟨?_, ?_⟩, fun hne h0 hlt => ?_⟩
  · simp only [nextTrack]
    rw [if_pos h]
  · simp only [previousTrack]
    rw [if_pos h]
  · have hpos : 0 < st.tracks.length := List.length_pos.mpr hne
    refine ⟨fun h2 => ?_, fun heq hr => ?_, fun heq hr => ?_,
      fun h2 => ?_, fun heq hr => ?_, fun heq hr => ?_⟩
    · simp only [nextTrack]
      rw [if_neg hne, if_neg (by omega)]
      simp only [playTrackAtIndex]
      rw [if_neg (by push_neg; exact ⟨hne, by omega, by omega⟩)]
    · simp only [nextTrack]
      rw [if_neg hne, if_pos (by omega), if_pos hr]
      simp only [playTrackAtIndex]
      rw [if_neg (by push_neg; exact ⟨hne, by omega, by omega⟩)]
      simp
    · simp only [nextTrack]
      rw [if_neg hne, if_pos (by omega), if_neg (by simp [hr])]
    · simp only [previousTrack]
      rw [if_neg hne, if_neg (by omega)]
      simp only [playTrackAtIndex]
      rw [if_neg (by push_neg; exact ⟨hne, by omega, by omega⟩)]
    · simp only [previousTrack]
      rw [if_neg hne, if_pos (by omega), if_pos hr]
      simp only [playTrackAtIndex]
      rw [if_neg (by push_neg; exact ⟨hne, by omega, by omega⟩)]
    · simp only [previousTrack]
      rw [if_neg hne, if_pos (by omega), if_neg (by simp [hr])]

/-- C8 witness: a mid-album Next advances by one, and a boundary Next with
the repeat flag set wraps to index 0. -/
theorem nextPrev_transitions_witness :
    nextTrack ⟨some "/m", some "A", some "/m/A", ["/m/A/1.mp3", "/m/A/2.mp3"], 0,
        some "/m/A/1.mp3", true, false⟩ =
      (⟨some "/m", some "A", some "/m/A", ["/m/A/1.mp3", "/m/A/2.mp3"], 1,
        some "/m/A/2.mp3", true, false⟩, MPAction.playMedia 1 "/m/A/2.mp3") ∧
    previousTrack ⟨some "/m", some "A", some "/m/A", ["/m/A/1.mp3", "/m/A/2.mp3"], 0,
        some "/m/A/1.mp3", true, false⟩ =
      (⟨some "/m", some "A", some "/m/A", ["/m/A/1.mp3", "/m/A/2.mp3"], 1,
        some "/m/A/2.mp3", true, false⟩, MPAction.playMedia 1 "/m/A/2.mp3") := by
  constructor
  · have h := nextPrev_transitions
      ⟨some "/m", some "A", some "/m/A", ["/m/A/1.mp3", "/m/A/2.mp3"], 0,
        some "/m/A/1.mp3", true, false⟩
    exact (h.2 (by decide) (by decide) (by decide)).1 (by decide)
  · have h := nextPrev_transitions
      ⟨some "/m", some "A", some "/m/A", ["/m/A/1.mp3", "/m/A/2.mp3"], 0,
        some "/m/A/1.mp3", true, false⟩
    exact (h.2 (by decide) (by decide) (by decide)).2.2.2.2.1 rfl rfl

/-! ## C9: PlayTrack search and session -/

/-- match_quality takes only the values 0 to 3. -/
theorem matchQuality_lt_four (t p : String) : matchQuality t p < 4 := by
  unfold matchQuality
  split_ifs <;> omega

/-- Membership in an equal-key bucket determines the key. -/
theorem mem_bucket {t : String} {l : List String} {k : Nat} {p : String}
    (h : p ∈ l.filter (fun x => matchQuality t x == k)) : matchQuality t p = k := by
  have h2 := (List.mem_filter.mp h).2
  simpa using h2

/-- Each equal-key bucket is trivially sorted by the key. -/
theorem bucket_pairwise (t : String) (l : List String) (k : Nat) :
    (l.filter (fun x => matchQuality t x == k)).Pairwise
      (fun a b => matchQuality t a ≤ matchQuality t b) := by
  refine List.pairwise_of_forall_mem_list ?_
  intro a ha b hb
  rw [mem_bucket ha, mem_bucket hb]

/-- Appending key-sorted lists whose keys do not decrease across the seam
stays key-sorted. -/
theorem pairwise_append_le {q : String → Nat} {l1 l2 : List String}
    (h1 : l1.Pairwise (fun a b => q a ≤ q b)) (h2 : l2.Pairwise (fun a b => q a ≤ q b))
    (hcross : ∀ a ∈ l1, ∀ b ∈ l2, q a ≤ q b) :
    (l1 ++ l2).Pairwise (fun a b => q a ≤ q b) :=
  List.pairwise_append.mpr ⟨h1, h2, hcross⟩

/-- The bucketized stable sort is sorted by match_quality. -/
theorem sortByQuality_pairwise (t : String) (l : List String) :
    (sortByQuality t l).Pairwise (fun a b => matchQuality t a ≤ matchQuality t b) := by
  unfold sortByQuality
  refine pairwise_append_le (pairwise_append_le (pairwise_append_le
      (bucket_pairwise t l 0) (bucket_pairwise t l 1) ?_)
      (bucket_pairwise t l 2) ?_) (bucket_pairwise t l 3) ?_
  · intro a ha b hb
    rw [mem_bucket ha, mem_bucket hb]
    omega
  · intro a ha b hb
    rcases List.mem_append.mp ha with h | h <;>
      rw [mem_bucket h, mem_bucket hb] <;> omega
  · intro a ha b hb
    rcases List.mem_append.mp ha with h | h
    · rcases List.mem_append.mp h with h2 | h2 <;>
        rw [mem_bucket h2, mem_bucket hb] <;> omega
    · rw [mem_bucket h, mem_bucket hb]
      omega

/-- Filtering a bucket by its own key is the identity. -/
theorem filter_bucket_self (f : String → Bool) (l : List String) :
    (l.filter f).filter f = l.filter f := by
  simp [List.filter_filter]

/-- Filtering a bucket by a different key yields nothing. -/
theorem filter_bucket_ne (q : String → Nat) {i k : Nat} (h : i ≠ k) (l : List String) :
    (l.filter (fun x => q x == i)).filter (fun x => q x == k) = [] := by
  induction l with
  | nil => rfl
  | cons a rest ih =>
      by_cases h1 : q a = i
      · simp [List.filter_cons, h1, ih, h]
      · simp [List.filter_cons, h1, ih]

/-- Keys of value at least 4 never occur. -/
theorem filter_bucket_big (t : String) (l : List String) {k : Nat} (h : 4 ≤ k) :
    l.filter (fun p => matchQuality t p == k) = [] := by
  induction l with
  | nil => rfl
  | cons a rest ih =>
      have hb := matchQuality_lt_four t a
      have hne : matchQuality t a ≠ k := by omega
      simp [List.filter_cons, hne, ih]

/-- The bucketized sort is stable: restricted to any one key, it returns
exactly the input candidates with that key in their original order. -/
theorem sortByQuality_filter (t : String) (l : List String) (k : Nat) :
    (sortByQuality t l).filter (fun p => matchQuality t p == k) =
      l.filter (fun p => matchQuality t p == k) := by
  unfold sortByQuality
  rw [List.filter_append, List.filter_append, List.filter_append]
  match k with
  | 0 =>
      rw [filter_bucket_self, filter_bucket_ne _ (by omega),
        filter_bucket_ne _ (by omega), filter_bucket_ne _ (by omega)]
      simp
  | 1 =>
      rw [filter_bucket_self, filter_bucket_ne _ (by omega),
        filter_bucket_ne _ (by omega), filter_bucket_ne _ (by omega)]
      simp
  | 2 =>
      rw [filter_bucket_self, filter_bucket_ne _ (by omega),
        filter_bucket_ne _ (by omega), filter_bucket_ne _ (by omega)]
      simp
  | 3 =>
      rw [filter_bucket_self, filter_bucket_ne _ (by omega),
        filter_bucket_ne _ (by omega), filter_bucket_ne _ (by omega)]
      simp
  | (n + 4) =>
      rw [filter_bucket_ne _ (show (0 : Nat) ≠ n + 4 by omega),
        filter_bucket_ne _ (show (1 : Nat) ≠ n + 4 by omega),
        filter_bucket_ne _ (show (2 : Nat) ≠ n + 4 by omega),
        filter_bucket_ne _ (show (3 : Nat) ≠ n + 4 by omega),
        filter_bucket_big t l (by omega)]
      simp

/-- C9 counterexample: for the term solo, with the traversal meeting
solo.aac before solo.flac, both files are exact-stem matches of equal rank
under the spec ranking, so the claimed stable tie-break must select
m/solo.aac (first in traversal and in path order); the code instead puts
m/solo.flac first, because match_quality grants an extra top rank to exact
filenames with the .mp3 or .flac extension. -/
theorem findTracks_rank_not_spec_stable :
    findTracksByName "solo" [⟨"m", "solo.aac"⟩, ⟨"m", "solo.flac"⟩] =
      ["m/solo.flac", "m/solo.aac"] ∧
    specRank "solo" "m/solo.aac" = specRank "solo" "m/solo.flac" := by
  decide

/-- C9 amended: the search result is sorted by match_quality (exact
lowercased filename equal to the term plus .mp3 or .flac, then exact stem,
then filename starting with the term, then substring), ties at equal rank
staying stable in traversal order; with a match, the player installs a
one-track session with single_track_mode forced on (regardless of the
repeat flag) and starts the first match; without a match, or without a
music source, it reports failure and changes nothing. -/
theorem playTrackByName_transitions :
    (∀ t w, (findTracksByName t w).Pairwise
        (fun a b => matchQuality t a ≤ matchQuality t b)) ∧
    (∀ t w k, (findTracksByName t w).filter (fun p => matchQuality t p == k) =
        (candidatePaths t w).filter (fun p => matchQuality t p == k)) ∧
    (∀ t w st, st.musicSource = none ∨ findTracksByName t w = [] →
        playTrackByName t w st = (st, false)) ∧
    (∀ t w st p rest, st.musicSource ≠ none → findTracksByName t w = p :: rest →
        playTrackByName t w st =
          ({ st with
              currentAlbum := some ("Single Track: " ++ basename p),
              currentAlbumFolder := some (dirname p),
              tracks := [p],
              trackIndex := 0,
              currentTrackPath := some p,
              singleTrackMode := true }, true)) := by
  refine ⟨fun t w => ?_, fun t w k => ?_, fun t w st h => ?_, fun t w st p rest hm h => ?_⟩
  · exact sortByQuality_pairwise t (candidatePaths t w)
  · exact sortByQuality_filter t (candidatePaths t w) k
  · rcases h with h | h
    · simp [playTrackByName, h]
    · by_cases hm : st.musicSource = none
      · simp [playTrackByName, hm]
      · simp [playTrackByName, hm, h]
  · simp [playTrackByName, hm, h]

/-- C9 witness: the spec scenario, where the term solo matches the file
named 01 - Solo (Live).mp3 and yields a playing one-track session with
single-track repeat forced on. -/
theorem playTrackByName_transitions_witness :
    playTrackByName "solo" [⟨"/m", "01 - Solo (Live).mp3"⟩]
        ⟨some "/m", none, none, [], 0, none, true, false⟩ =
      (⟨some "/m", some "Single Track: 01 - Solo (Live).mp3", some "/m",
        ["/m/01 - Solo (Live).mp3"], 0, some "/m/01 - Solo (Live).mp3", true, true⟩,
        true) := by
  have h := playTrackByName_transitions.2.2.2 "solo" [⟨"/m", "01 - Solo (Live).mp3"⟩]
    ⟨some "/m", none, none, [], 0, none, true, false⟩
    "/m/01 - Solo (Live).mp3" [] (by decide) (by decide)
  rw [h]
  decide

/-! ## C10: control-path resolution -/

/-- Every mount returned by the MUSIC scan of /media/pi passed the
accessibility check. -/
theorem firstMusicMount_accessible (fs : Fs) :
    ∀ (l : List String) (p : String),
      firstMusicMount fs l = some p → fs.accessible p = true := by
  intro l
  induction l with
  | nil =>
      intro p h
      exact absurd h (by simp [firstMusicMount])
  | cons i rest ih =>
      intro p h
      simp only [firstMusicMount] at h
      by_cases hs : pyStartsWith i "MUSIC" = true
      · rw [if_pos hs] at h
        by_cases ha : fs.accessible ("/media/pi/" ++ i) = true
        · rw [if_pos ha] at h
          injection h with e
          rw [← e]
          exact ha
        · rw [if_neg ha] at h
          exact ih p h
      · rw [if_neg hs] at h
        exact ih p h

/-- Every mount returned by the priority-4 music scan is accessible. -/
theorem mediaScanMusic_accessible (fs : Fs) (p : String)
    (h : mediaScanMusic fs = some p) : fs.accessible p = true := by
  unfold mediaScanMusic at h
  cases hm : fs.mediaPi with
  | some items =>
      rw [hm] at h
      exact firstMusicMount_accessible fs items p h
  | none =>
      rw [hm] at h
      exact absurd h (by simp)

/-- Every path find_music_usb returns passed the deep accessibility
check. -/
theorem findMusicUsb_accessible (fs : Fs) (p : String)
    (h : findMusicUsb fs = some p) : fs.accessible p = true := by
  have rest : ∀ q : String, findMusicUsbRest fs = some q → fs.accessible q = true := by
    intro q hq
    unfold findMusicUsbRest at hq
    by_cases h1 : fs.accessible "/home/pi/usb/music" = true
    · rw [if_pos h1] at hq
      injection hq with e
      rw [← e]
      exact h1
    · rw [if_neg h1] at hq
      by_cases h2 : fs.accessible "/shared/usb/music" = true
      · rw [if_pos h2] at hq
        injection hq with e
        rw [← e]
        exact h2
      · rw [if_neg h2] at hq
        cases hms : mediaScanMusic fs with
        | some m =>
            rw [hms] at hq
            have hq2 : some m = some q := hq
            injection hq2 with e
            rw [← e]
            exact mediaScanMusic_accessible fs m hms
        | none =>
            rw [hms] at hq
            have hq2 : (if fs.accessible "/home/pi/usb" = true then some "/home/pi/usb"
                else if fs.accessible "/mnt/usb" = true then some "/mnt/usb"
                else none) = some q := hq
            by_cases h3 : fs.accessible "/home/pi/usb" = true
            · rw [if_pos h3] at hq2
              injection hq2 with e
              rw [← e]
              exact h3
            · rw [if_neg h3] at hq2
              by_cases h4 : fs.accessible "/mnt/usb" = true
              · rw [if_pos h4] at hq2
                injection hq2 with e
                rw [← e]
                exact h4
              · rw [if_neg h4] at hq2
                exact absurd hq2 (by simp)
  unfold findMusicUsb at h
  cases henv : fs.envMusic with
  | some env =>
      rw [henv] at h
      have h2 : (if fs.accessible env = true then some env
          else findMusicUsbRest fs) = some p := h
      by_cases ha : fs.accessible env = true
      · rw [if_pos ha] at h2
        injection h2 with e
        rw [← e]
        exact ha
      · rw [if_neg ha] at h2
        exact rest p h2
  | none =>
      rw [henv] at h
      exact rest p h

/-- Every mount returned by the PLAY_CARD scan of /media/pi passed the
accessibility check and holds the control file. -/
theorem firstControlMount_ok (fs : Fs) :
    ∀ (l : List String) (p : String),
      firstControlMount fs l = some p →
      fs.accessible p = true ∧ hasControlFile fs p = true := by
  intro l
  induction l with
  | nil =>
      intro p h
      exact absurd h (by simp [firstControlMount])
  | cons i rest ih =>
      intro p h
      simp only [firstControlMount] at h
      by_cases hs : pyStartsWith i "PLAY_CARD" = true
      · rw [if_pos hs] at h
        by_cases ha : (fs.accessible ("/media/pi/" ++ i) &&
            hasControlFile fs ("/media/pi/" ++ i)) = true
        · rw [if_pos ha] at h
          injection h with e
          rw [← e]
          exact Bool.and_eq_true_iff.mp ha
        · rw [if_neg ha] at h
          exact ih p h
      · rw [if_neg hs] at h
        exact ih p h

/-- Every mount returned by the priority-4 control scan is accessible and
holds the control file. -/
theorem mediaScanControl_ok (fs : Fs) (p : String)
    (h : mediaScanControl fs = some p) :
    fs.accessible p = true ∧ hasControlFile fs p = true := by
  unfold mediaScanControl at h
  cases hm : fs.mediaPi with
  | some items =>
      rw [hm] at h
      exact firstControlMount_ok fs items p h
  | none =>
      rw [hm] at h
      exact absurd h (by simp)

/-- C10 amended: every path the control-role resolver find_control_usb
returns passed the deep accessibility check and contains the designated
control file in the os.path.isfile sense; the resolver never opens the
file, so a successful read is not part of the guarantee. -/
theorem findControlUsb_access_and_isfile (fs : Fs) (p : String)
    (h : findControlUsb fs = some p) :
    fs.accessible p = true ∧ hasControlFile fs p = true := by
  have rest : ∀ q : String, findControlUsbRest fs = some q →
      fs.accessible q = true ∧ hasControlFile fs q = true := by
    intro q hq
    unfold findControlUsbRest at hq
    by_cases h1 : (fs.accessible "/home/pi/usb/playcard" &&
        hasControlFile fs "/home/pi/usb/playcard") = true
    · rw [if_pos h1] at hq
      injection hq with e
      rw [← e]
      exact Bool.and_eq_true_iff.mp h1
    · rw [if_neg h1] at hq
      by_cases h2 : (fs.accessible "/shared/usb/playcard" &&
          hasControlFile fs "/shared/usb/playcard") = true
      · rw [if_pos h2] at hq
        injection hq with e
        rw [← e]
        exact Bool.and_eq_true_iff.mp h2
      · rw [if_neg h2] at hq
        cases hms : mediaScanControl fs with
        | some m =>
            rw [hms] at hq
            have hq2 : some m = some q := hq
            injection hq2 with e
            rw [← e]
            exact mediaScanControl_ok fs m hms
        | none =>
            rw [hms] at hq
            cases hmu : findMusicUsb fs with
            | some m =>
                rw [hmu] at hq
                have hq2 : (if hasControlFile fs m = true then some m else none) = some q := hq
                by_cases h3 : hasControlFile fs m = true
                · rw [if_pos h3] at hq2
                  injection hq2 with e
                  rw [← e]
                  exact ⟨findMusicUsb_accessible fs m hmu, h3⟩
                · rw [if_neg h3] at hq2
                  exact absurd hq2 (by simp)
            | none =>
                rw [hmu] at hq
                exact absurd hq (by simp)
  unfold findControlUsb at h
  cases henv : fs.envControl with
  | some env =>
      rw [henv] at h
      have h2 : (if (fs.accessible env && hasControlFile fs env) = true then some env
          else findControlUsbRest fs) = some p := h
      by_cases ha : (fs.accessible env && hasControlFile fs env) = true
      · rw [if_pos ha] at h2
        injection h2 with e
        rw [← e]
        exact Bool.and_eq_true_iff.mp ha
      · rw [if_neg ha] at h2
        exact rest p h2
  | none =>
      rw [henv] at h
      exact rest p h

/-- A filesystem whose control override is accessible and shows the
control file by isfile, while every open-and-read fails. -/
def fsUnreadable : Fs :=
  ⟨none, some "/e", fun p => p == "/e", fun p => p == "/e/control.txt",
    fun _ => false, none⟩

/-- C10 counterexample: the resolver returns the override path even though
reading its control file fails, because it checks only accessibility and
isfile and never opens the file; so resolution can return a control path
whose control file cannot be read. -/
theorem findControlUsb_unreadable_file_returned :
    findControlUsb fsUnreadable = some "/e" ∧
    fsUnreadable.readOk ("/e" ++ "/" ++ controlFileName) = false := by
  exact ⟨rfl, rfl⟩

/-- C10 witness: the guaranteed part holds on the same filesystem. -/
theorem findControlUsb_access_and_isfile_witness :
    fsUnreadable.accessible "/e" = true ∧
    fsUnreadable.isFile ("/e" ++ "/" ++ controlFileName) = true := by
  have h := findControlUsb_access_and_isfile fsUnreadable "/e" (by decide)
  exact ⟨h.1, h.2⟩
